import Mathlib

/-!
Shallow embedding of the go-game repository's two engines (Snake, Tetris)
and verification of the frozen claims about them.

Conventions:
* Go `int` is modelled by `Int` where values can go negative (coordinates,
  piece positions, scores) and by `Nat` for loop indices and list lengths.
* Boards (`[][]int`) are `List (List Nat)`; indexing `board[y][x]` becomes
  `(board.getD y []).getD x 0`.  All accesses proved about are guarded by
  the same bounds the Go code checks, so the `getD` defaults are inert.
* The injected random source (`*rand.Rand` / the `RNG` interface) is a
  deterministic stream `List Nat`: `Intn n` consumes the head `v` and
  returns `v % n`, a value in `[0, n)` as the interface requires.
* Unbounded `for` loops (`getGhostPosition`, the outer `clearLines` scan)
  are embedded with an explicit fuel parameter; sufficiency of the fuel
  used is proved where a claim needs it.
-/

set_option maxRecDepth 20000

/-- `Intn`: consume one value from the deterministic random stream and
reduce it into `[0, n)`, returning the rest of the stream. -/
def rngNext (rng : List Nat) (n : Nat) : Nat × List Nat :=
  match rng with
  | [] => (0, [])
  | v :: rest => (v % n, rest)

namespace Snake

def BoardWidth : Nat := 20

def BoardHeight : Nat := 15

def SpeedNormal : Int := 150

def SpeedFast : Int := 80

inductive Direction where
  | Up
  | Down
  | Left
  | Right
deriving DecidableEq, Repr

/-- Opposite direction pairs (Up↔Down, Left↔Right). -/
def Direction.opposite : Direction → Direction
  | .Up => .Down
  | .Down => .Up
  | .Left => .Right
  | .Right => .Left

structure Point where
  x : Int
  y : Int
deriving DecidableEq, Repr

structure Game where
  board : List (List Nat)
  snake : List Point
  food : Point
  direction : Direction
  nextDir : Direction
  score : Int
  length : Int
  paused : Bool
  gameOver : Bool
  rng : List Nat
deriving DecidableEq, Repr

/-- The board allocated by `NewGame`: `BoardHeight` rows of `BoardWidth` zeroes. -/
def emptyBoard : List (List Nat) :=
  List.replicate BoardHeight (List.replicate BoardWidth 0)

/-- The canonical 3-cell starting body (head first), as in `NewGame`/`reset`. -/
def initialSnake : List Point :=
  [⟨(BoardWidth : Int) / 2, (BoardHeight : Int) / 2⟩,
   ⟨(BoardWidth : Int) / 2, (BoardHeight : Int) / 2 + 1⟩,
   ⟨(BoardWidth : Int) / 2, (BoardHeight : Int) / 2 + 2⟩]

/-- `NewGame` (the screen argument is presentation-only and omitted). -/
def newGame (rng : List Nat) : Game :=
  { board := emptyBoard
    snake := initialSnake
    food := ⟨0, 0⟩
    direction := .Up
    nextDir := .Up
    score := 0
    length := 3
    paused := false
    gameOver := false
    rng := rng }

/-- The candidate list built by `spawnFood`: all cells with board value 0,
scanned row-major (y outer, x inner). -/
def spawnCandidates (g : Game) : List Point :=
  (List.range BoardHeight).flatMap (fun y =>
    (List.range BoardWidth).filterMap (fun x =>
      if (g.board.getD y []).getD x 0 = 0 then some ⟨(x : Int), (y : Int)⟩ else none))

/-- `spawnFood`: pick a uniform candidate if any exist, else leave food alone.
The random stream is consumed only when a candidate exists, as in the source. -/
def spawnFood (g : Game) : Game :=
  let emptyPoints := spawnCandidates g
  if emptyPoints.length > 0 then
    let r := rngNext g.rng emptyPoints.length
    { g with food := emptyPoints.getD r.1 ⟨0, 0⟩, rng := r.2 }
  else g

/-- `collides head`: wall check on both axes, then self-collision against
every body cell except the last (the tail vacates this tick). -/
def collides (g : Game) (head : Point) : Bool :=
  if head.x < 0 ∨ head.x ≥ (BoardWidth : Int) ∨ head.y < 0 ∨ head.y ≥ (BoardHeight : Int) then
    true
  else
    (g.snake.take (g.snake.length - 1)).any (fun p => p = head)

def movePoint (p : Point) : Direction → Point
  | .Up => { p with y := p.y - 1 }
  | .Down => { p with y := p.y + 1 }
  | .Left => { p with x := p.x - 1 }
  | .Right => { p with x := p.x + 1 }

/-- `move`: apply `nextDir`, advance the head one cell, end the game on
collision, otherwise prepend the head and handle food / tail dropping. -/
def move (g : Game) : Game × Bool :=
  let g1 := { g with direction := g.nextDir }
  let head := movePoint (g1.snake.getD 0 ⟨0, 0⟩) g1.direction
  if collides g1 head then
    ({ g1 with gameOver := true }, false)
  else
    let ateFood := head = g1.food
    let g2 := { g1 with snake := head :: g1.snake }
    if ateFood then
      (spawnFood { g2 with score := g2.score + 10, length := g2.length + 1 }, true)
    else if (g2.snake.length : Int) > g2.length then
      ({ g2 with snake := g2.snake.dropLast }, true)
    else
      (g2, true)

/-- `getSpeed`: `SpeedNormal - score/5`, floored at `SpeedFast`. -/
def getSpeed (g : Game) : Int :=
  let speed := SpeedNormal - g.score / 5
  if speed < SpeedFast then SpeedFast else speed

/-- `reset`: zero the board in place, reinstall the canonical body and
initial flags, then spawn food. -/
def reset (g : Game) : Game :=
  spawnFood
    { g with
      board := g.board.map (fun row => row.map (fun _ => 0))
      snake := initialSnake
      direction := .Up
      nextDir := .Up
      score := 0
      length := 3
      paused := false
      gameOver := false }

/-- The arrow-key handling of `Run` (snake.go lines 44-85): nothing while
`gameOver`; dropped while `paused` (the `continue` before the direction
switch); otherwise record the direction unless it reverses the current one. -/
def requestDirection (g : Game) (d : Direction) : Game :=
  if g.gameOver then g
  else if g.paused then g
  else
    match d with
    | .Up => if g.direction ≠ .Down then { g with nextDir := .Up } else g
    | .Down => if g.direction ≠ .Up then { g with nextDir := .Down } else g
    | .Left => if g.direction ≠ .Right then { g with nextDir := .Left } else g
    | .Right => if g.direction ≠ .Left then { g with nextDir := .Right } else g

/-- The `p` key handling of `Run`: toggle pause unless the game is over. -/
def togglePause (g : Game) : Game :=
  if g.gameOver then g else { g with paused := !g.paused }

/-- States the `Run` loop can reach: the entry state `spawnFood (newGame rng)`
closed under the loop's calls (tick `move` when active, `r` resets, pause
toggle, arrow keys). -/
inductive Reachable : Game → Prop
  | init (rng : List Nat) : Reachable (spawnFood (newGame rng))
  | tick (g : Game) : Reachable g → g.gameOver = false → g.paused = false →
      Reachable (move g).1
  | resetOver (g : Game) : Reachable g → g.gameOver = true → Reachable (reset g)
  | resetActive (g : Game) : Reachable g → g.gameOver = false → g.paused = false →
      Reachable (reset g)
  | pause (g : Game) : Reachable g → Reachable (togglePause g)
  | reqDir (g : Game) (d : Direction) : Reachable g → Reachable (requestDirection g d)

end Snake

namespace Tetris

def BoardWidth : Nat := 10

def BoardHeight : Nat := 20

/-- The seven canonical tetromino shape matrices (read-only templates). -/
def Shapes : List (List (List Nat)) :=
  [[[1, 1, 1, 1]],
   [[1, 1], [1, 1]],
   [[0, 1, 0], [1, 1, 1]],
   [[0, 1, 1], [1, 1, 0]],
   [[1, 1, 0], [0, 1, 1]],
   [[1, 0, 0], [1, 1, 1]],
   [[0, 0, 1], [1, 1, 1]]]

structure Game where
  board : List (List Nat)
  currPiece : Nat
  currShape : List (List Nat)
  nextPiece : Nat
  pieceX : Int
  pieceY : Int
  score : Int
  lines : Int
  level : Int
  paused : Bool
  gameOver : Bool
  rng : List Nat
deriving DecidableEq, Repr

/-- The board allocated by `NewGame`: `BoardHeight` rows of `BoardWidth` zeroes. -/
def emptyBoard : List (List Nat) :=
  List.replicate BoardHeight (List.replicate BoardWidth 0)

/-- `NewGame()`. -/
def newGame (rng : List Nat) : Game :=
  { board := emptyBoard
    currPiece := 0
    currShape := []
    nextPiece := 0
    pieceX := (BoardWidth : Int) / 2 - 1
    pieceY := 0
    score := 0
    lines := 0
    level := 1
    paused := false
    gameOver := false
    rng := rng }

/-- `board[y][x]` for integer coordinates; only used under the source's
`0 ≤ y` guards and in-range x, where the defaults are inert. -/
def cellAt (b : List (List Nat)) (y x : Int) : Nat :=
  (b.getD y.toNat []).getD x.toNat 0

/-- The body of `collides()` over an explicit board / shape / position:
for every filled (`== 1`) shape cell, horizontal out-of-bounds fails
regardless of row, `boardY >= BoardHeight` fails, and an overlap with a
non-zero board cell fails only when `boardY >= 0`. -/
def collidesAt (b : List (List Nat)) (shape : List (List Nat)) (px py : Int) : Bool :=
  (List.range shape.length).any (fun y =>
    let row := shape.getD y []
    (List.range row.length).any (fun x =>
      let cell := row.getD x 0
      if cell = 1 then
        let boardX : Int := px + x
        let boardY : Int := py + y
        if boardX < 0 ∨ boardX ≥ (BoardWidth : Int) ∨ boardY ≥ (BoardHeight : Int) then
          true
        else if boardY ≥ 0 ∧ cellAt b boardY boardX ≠ 0 then
          true
        else
          false
      else
        false))

/-- `collides()` on the game state. -/
def collides (g : Game) : Bool :=
  collidesAt g.board g.currShape g.pieceX g.pieceY

/-- `spawnPiece()`: take `nextPiece - 1` if set, else draw; center
horizontally; draw a fresh `nextPiece`; game over if the piece collides. -/
def spawnPiece (g : Game) : Game :=
  let pick : Nat × List Nat :=
    if g.nextPiece = 0 then rngNext g.rng Shapes.length else (g.nextPiece - 1, g.rng)
  let shape := Shapes.getD pick.1 []
  let nxt := rngNext pick.2 Shapes.length
  let g1 :=
    { g with
      currPiece := pick.1
      currShape := shape
      pieceX := (BoardWidth : Int) / 2 - ((shape.getD 0 []).length : Int) / 2
      pieceY := 0
      nextPiece := nxt.1 + 1
      rng := nxt.2 }
  if collides g1 then { g1 with gameOver := true } else g1

/-- The 90-degree clockwise transform built by `rotate()`:
`rotated[x][rows-1-y] = shape[y][x]`, i.e. `rotated[i][j] = shape[rows-1-j][i]`. -/
def rotateShape (shape : List (List Nat)) : List (List Nat) :=
  let rows := shape.length
  let cols := (shape.getD 0 []).length
  (List.range cols).map (fun i =>
    (List.range rows).map (fun j => (shape.getD (rows - 1 - j) []).getD i 0))

/-- `rotate()`: swap the rotated matrix in; restore the old shape if it collides. -/
def rotate (g : Game) : Game :=
  let rotated := rotateShape g.currShape
  let g1 := { g with currShape := rotated }
  if collides g1 then g else g1

/-- `move(dx, dy)`: tentative offset, reverted on collision. -/
def move (g : Game) (dx dy : Int) : Game × Bool :=
  let g1 := { g with pieceX := g.pieceX + dx, pieceY := g.pieceY + dy }
  if collides g1 then (g, false) else (g1, true)

/-- `board[y] = row-with-cell-x-set-to-v` (no-op when out of range, matching
the in-bounds guards under which the source writes). -/
def setCell (b : List (List Nat)) (y x : Nat) (v : Nat) : List (List Nat) :=
  b.set y ((b.getD y []).set x v)

/-- `lockPiece()`: write `currPiece + 1` into every in-bounds board cell
covered by a filled shape cell. -/
def lockPiece (g : Game) : Game :=
  { g with
    board :=
      (List.range g.currShape.length).foldl (fun b y =>
        let row := g.currShape.getD y []
        (List.range row.length).foldl (fun b x =>
          if row.getD x 0 = 1 then
            let boardY := g.pieceY + (y : Int)
            let boardX := g.pieceX + (x : Int)
            if 0 ≤ boardY ∧ boardY < (BoardHeight : Int) ∧
                0 ≤ boardX ∧ boardX < (BoardWidth : Int) then
              setCell b boardY.toNat boardX.toNat (g.currPiece + 1)
            else
              b
          else
            b) b) g.board }

/-- A row is complete when every one of its `BoardWidth` columns is non-zero. -/
def completeRow (r : List Nat) : Bool :=
  (List.range BoardWidth).all (fun x => r.getD x 0 ≠ 0)

/-- The row shift of `clearLines`: for `removeY` from `y` down to `1`, copy
row `removeY-1` into row `removeY` (the source copies the `BoardWidth`
cells element-wise, which on well-formed rows equals replacing the row by
the one above it). -/
def shiftAux (b : List (List Nat)) : Nat → List (List Nat)
  | 0 => b
  | r + 1 => shiftAux (b.set (r + 1) (b.getD r [])) r

/-- Clearing of the top row after a shift: every cell of row 0 becomes 0. -/
def clearTop (b : List (List Nat)) : List (List Nat) :=
  b.set 0 ((b.getD 0 []).map (fun _ => 0))

/-- The bottom-to-top scan of `clearLines` with fuel for the outer loop:
on a complete row, shift everything above down, clear row 0, and re-examine
the same index; otherwise move up one row.  Exits when `y < 0`. -/
def clearAux : Nat → List (List Nat) → Int → Nat → List (List Nat) × Nat
  | 0, b, _, acc => (b, acc)
  | fuel + 1, b, y, acc =>
    if y < 0 then (b, acc)
    else if completeRow (b.getD y.toNat []) then
      clearAux fuel (clearTop (shiftAux b y.toNat)) y (acc + 1)
    else
      clearAux fuel b (y - 1) acc

def scoreTable : List Int := [0, 100, 300, 500, 800]

/-- `clearLines()`: run the scan, then update `lines`, `score` (old level)
and `level` when anything was cleared.  Go's `scoreTable[linesCleared]`
panics when more than 4 rows were cleared; that is modelled as `none`. -/
def clearLines (g : Game) : Option Game :=
  let r := clearAux 64 g.board ((BoardHeight : Int) - 1) 0
  if r.2 > 0 then
    if r.2 < scoreTable.length then
      some
        { g with
          board := r.1
          lines := g.lines + (r.2 : Int)
          score := g.score + scoreTable.getD r.2 0 * g.level
          level := (g.lines + (r.2 : Int)) / 10 + 1 }
    else
      none
  else
    some { g with board := r.1 }

/-- `drop()`: gravity step; on landing lock, clear, spawn and report `false`.
`none` propagates the (unreachable in play) `clearLines` panic. -/
def drop (g : Game) : Option (Game × Bool) :=
  let r := move g 0 1
  if r.2 then
    some (r.1, true)
  else
    match clearLines (lockPiece g) with
    | none => none
    | some g1 => some (spawnPiece g1, false)

/-- The per-cell stopping test of `getGhostPosition` at candidate row
`gy + 1`: bottom edge or overlap with a locked cell (`boardY >= 0` only).
The horizontal coordinate is not re-checked, exactly as in the source. -/
def ghostStop (b : List (List Nat)) (shape : List (List Nat)) (px gy : Int) : Bool :=
  (List.range shape.length).any (fun y =>
    let row := shape.getD y []
    (List.range row.length).any (fun x =>
      let cell := row.getD x 0
      if cell = 1 then
        let boardX : Int := px + x
        let boardY : Int := gy + y + 1
        if boardY ≥ (BoardHeight : Int) then true
        else if boardY ≥ 0 ∧ cellAt b boardY boardX ≠ 0 then true
        else false
      else
        false))

/-- The descent loop of `getGhostPosition`, with fuel. -/
def ghostAux (b : List (List Nat)) (shape : List (List Nat)) (px : Int) :
    Nat → Int → Int
  | 0, gy => gy
  | fuel + 1, gy => if ghostStop b shape px gy then gy else ghostAux b shape px fuel (gy + 1)

/-- `getGhostPosition()`: simulate the descent from `pieceY`; x is returned
unchanged. -/
def getGhostPosition (g : Game) (fuel : Nat) : Int × Int :=
  (g.pieceX, ghostAux g.board g.currShape g.pieceX fuel g.pieceY)

/-- The piece row reached by calling `move(0,1)` (the body of `drop()`)
repeatedly until it first fails, with fuel: stop as soon as the position one
row down collides. -/
def dropIterY (b : List (List Nat)) (shape : List (List Nat)) (px : Int) :
    Nat → Int → Int
  | 0, py => py
  | fuel + 1, py =>
    if collidesAt b shape px (py + 1) then py else dropIterY b shape px fuel (py + 1)

/-- `reset()`: zero the board in place, reset counters and flags, then spawn. -/
def reset (g : Game) : Game :=
  spawnPiece
    { g with
      board := g.board.map (fun row => row.map (fun _ => 0))
      score := 0
      lines := 0
      level := 1
      nextPiece := 0
      paused := false
      gameOver := false }

/-- `getDropInterval()`: `500 / level`, floored at 50. -/
def getDropInterval (g : Game) : Int :=
  let interval := 500 / g.level
  if interval < 50 then 50 else interval

/-- Shape has at least one filled cell (true of all templates and rotations). -/
def shapeHasCell (shape : List (List Nat)) : Bool :=
  shape.any (fun row => row.any (fun c => c = 1))

/-- Well-formed board: `BoardHeight` rows of `BoardWidth` cells. -/
def wfBoard (b : List (List Nat)) : Bool :=
  b.length = BoardHeight && b.all (fun r => r.length = BoardWidth)

end Tetris


/-! ## Concrete states and derived constants used by the theorems below -/

/-- The entry state of the Snake `Run` loop with an empty random stream. -/
def activeSnakeState : Snake.Game :=
  Snake.spawnFood (Snake.newGame [])

/-- The entry state after one press of `p`. -/
def pausedSnakeState : Snake.Game :=
  Snake.togglePause activeSnakeState

/-- The entry state of the Tetris `Run` loop (deterministic stream drawing
the I piece) with the game-over flag forced on. -/
def overTetrisState : Tetris.Game :=
  { Tetris.spawnPiece (Tetris.newGame [0, 1]) with gameOver := true }

/-- All `BoardWidth * BoardHeight` cells in the row-major scan order of
`spawnFood`. -/
def snakeAllCells : List Snake.Point :=
  (List.range Snake.BoardHeight).flatMap (fun y =>
    (List.range Snake.BoardWidth).map (fun x => ⟨(x : Int), (y : Int)⟩))

/-- The all-zero row that a cleared top row becomes. -/
def Tetris.emptyRow : List Nat := List.replicate Tetris.BoardWidth 0

/-- The multi-row demonstration state: rows 18 and 19 are complete (stacked),
everything else empty, level 1. -/
def clearDemoState : Tetris.Game :=
  { board := List.replicate 18 (List.replicate 10 0) ++
      [List.replicate 10 3, List.replicate 10 5]
    currPiece := 0
    currShape := [[1, 1, 1, 1]]
    nextPiece := 1
    pieceX := 3
    pieceY := 0
    score := 0
    lines := 0
    level := 1
    paused := false
    gameOver := false
    rng := [] }

/-- A locking demonstration: the I piece lying on the floor of an empty
board. -/
def lockDemoState : Tetris.Game :=
  { board := Tetris.emptyBoard
    currPiece := 0
    currShape := [[1, 1, 1, 1]]
    nextPiece := 1
    pieceX := 3
    pieceY := 19
    score := 0
    lines := 0
    level := 1
    paused := false
    gameOver := false
    rng := [] }

/-! ## List helpers -/

theorem getD_map_range {α : Type} (n i : Nat) (f : Nat → α) (d : α) (h : i < n) :
    ((List.range n).map f).getD i d = f i := by
  simp [List.getD_eq_getElem?_getD, List.getElem?_map, List.getElem?_range, h]

theorem ite_cell_eq_true (c1 c2 : Prop) [Decidable c1] [Decidable c2] (n : Nat) :
    ((if n = 1 then (if c1 then true else if c2 then true else false) else false) = true) ↔
      (n = 1 ∧ (c1 ∨ c2)) := by
  split_ifs <;> simp_all

/-! ## Collision characterization (shared by C4 and C7) -/

theorem collidesAt_eq_true_iff (b shape : List (List Nat)) (px py : Int) :
    Tetris.collidesAt b shape px py = true ↔
      ∃ y, y < shape.length ∧ ∃ x, x < (shape.getD y []).length ∧
        (shape.getD y []).getD x 0 = 1 ∧
        (px + (x : Int) < 0 ∨ px + (x : Int) ≥ (Tetris.BoardWidth : Int) ∨
         py + (y : Int) ≥ (Tetris.BoardHeight : Int) ∨
         (py + (y : Int) ≥ 0 ∧ Tetris.cellAt b (py + (y : Int)) (px + (x : Int)) ≠ 0)) := by
  unfold Tetris.collidesAt
  simp only [List.any_eq_true, List.mem_range]
  constructor
  · rintro ⟨y, hy, x, hx, hb⟩
    rw [ite_cell_eq_true] at hb
    exact ⟨y, hy, x, hx, hb.1, by tauto⟩
  · rintro ⟨y, hy, x, hx, h1, h2⟩
    exact ⟨y, hy, x, hx, (ite_cell_eq_true _ _ _).mpr ⟨h1, by tauto⟩⟩

/-- C7: `Collides()` returns true iff some filled shape cell is horizontally
out of `[0, BoardWidth)` (whatever its row, including rows above the top),
or lies at `boardY ≥ BoardHeight`, or overlaps a non-zero board cell with
`boardY ≥ 0`; a filled cell with `boardY < 0` triggers neither the vertical
bound nor the overlap check. -/
theorem tetris_collides_boundary_asymmetry (g : Tetris.Game) :
    Tetris.collides g = true ↔
      ∃ y, y < g.currShape.length ∧ ∃ x, x < (g.currShape.getD y []).length ∧
        (g.currShape.getD y []).getD x 0 = 1 ∧
        (g.pieceX + (x : Int) < 0 ∨ g.pieceX + (x : Int) ≥ (Tetris.BoardWidth : Int) ∨
         g.pieceY + (y : Int) ≥ (Tetris.BoardHeight : Int) ∨
         (g.pieceY + (y : Int) ≥ 0 ∧
           Tetris.cellAt g.board (g.pieceY + (y : Int)) (g.pieceX + (x : Int)) ≠ 0)) :=
  collidesAt_eq_true_iff g.board g.currShape g.pieceX g.pieceY

/-- C6: `Rotate()` is atomic: when the clockwise transform of the current
shape would collide at the current position, the state is left bit-for-bit
unchanged; otherwise only the shape is replaced, by exactly that transform
(`rotated[x][rows-1-y] = shape[y][x]`). -/
theorem tetris_rotation_rollback :
    (∀ g : Tetris.Game,
      Tetris.rotate g =
        if Tetris.collidesAt g.board (Tetris.rotateShape g.currShape) g.pieceX g.pieceY then g
        else { g with currShape := Tetris.rotateShape g.currShape }) ∧
    (∀ (shape : List (List Nat)) (y x : Nat),
      y < shape.length → x < (shape.getD 0 []).length →
      ((Tetris.rotateShape shape).getD x []).getD (shape.length - 1 - y) 0 =
        (shape.getD y []).getD x 0) := by
  constructor
  · intro g
    rfl
  · intro shape y x hy hx
    unfold Tetris.rotateShape
    rw [getD_map_range _ _ _ _ hx, getD_map_range]
    · congr 2
      omega
    · omega

/-- C6 witness: at a concrete state (I-piece lying at the left wall of a
board whose second row is blocked in column 0, so the vertical form would
collide), rotation changes nothing; and the transform equation holds at a
concrete index of the T shape. -/
theorem tetris_rotation_rollback_witness :
    Tetris.rotate
        { board := [[0, 0, 0, 0, 0, 0, 0, 0, 0, 0], [9, 0, 0, 0, 0, 0, 0, 0, 0, 0]]
          currPiece := 0
          currShape := [[1, 1, 1, 1]]
          nextPiece := 1
          pieceX := 0
          pieceY := 0
          score := 0
          lines := 0
          level := 1
          paused := false
          gameOver := false
          rng := [] } =
      { board := [[0, 0, 0, 0, 0, 0, 0, 0, 0, 0], [9, 0, 0, 0, 0, 0, 0, 0, 0, 0]]
        currPiece := 0
        currShape := [[1, 1, 1, 1]]
        nextPiece := 1
        pieceX := 0
        pieceY := 0
        score := 0
        lines := 0
        level := 1
        paused := false
        gameOver := false
        rng := [] } ∧
    ((Tetris.rotateShape [[0, 1, 0], [1, 1, 1]]).getD 2 []).getD (2 - 1 - 1) 0 =
      (([[0, 1, 0], [1, 1, 1]] : List (List Nat)).getD 1 []).getD 2 0 := by
  constructor
  · rw [tetris_rotation_rollback.1]
    decide
  · exact tetris_rotation_rollback.2 [[0, 1, 0], [1, 1, 1]] 1 2 (by decide) (by decide)

/-! ## C1: food placement -/

/-- C1 (code bug): in the reachable entry state itself, with a random draw
of 150, `spawnFood` places the food on the snake's head cell `(10, 7)`:
the board is never marked with the body, so every cell is a candidate. -/
theorem snake_food_placement_violated :
    Snake.Reachable (Snake.spawnFood (Snake.newGame [150])) ∧
    (Snake.spawnFood (Snake.newGame [150])).food ∈
      (Snake.spawnFood (Snake.newGame [150])).snake :=
  ⟨Snake.Reachable.init [150], by decide⟩

/-! ## C3: direction requests while paused -/

/-- C3 counterexample: in the paused, non-over entry state moving Up, a
Left request (not the opposite of Up) is dropped: the state is unchanged
and `nextDir` stays Up instead of becoming Left. -/
theorem snake_paused_request_cex :
    pausedSnakeState.paused = true ∧
    pausedSnakeState.gameOver = false ∧
    pausedSnakeState.direction = Snake.Direction.Up ∧
    Snake.Direction.Left ≠ Snake.Direction.Up.opposite ∧
    Snake.requestDirection pausedSnakeState Snake.Direction.Left = pausedSnakeState ∧
    pausedSnakeState.nextDir = Snake.Direction.Up := by
  decide

/-- C3 amended: while paused the input handler drops direction requests
entirely (the state is unchanged); a non-reversing request is recorded into
`nextDir` only when the game is neither over nor paused. -/
theorem snake_paused_request_dropped (g : Snake.Game) (d : Snake.Direction) :
    (g.paused = true → Snake.requestDirection g d = g) ∧
    (g.paused = false → g.gameOver = false → g.direction ≠ d.opposite →
      (Snake.requestDirection g d).nextDir = d) := by
  unfold Snake.requestDirection
  constructor
  · intro hp
    rw [hp]
    split <;> simp
  · intro hp hg hop
    rw [hp, hg]
    cases d <;> simp_all [Snake.Direction.opposite]

theorem snake_paused_request_dropped_witness :
    Snake.requestDirection pausedSnakeState Snake.Direction.Left = pausedSnakeState ∧
    (Snake.requestDirection activeSnakeState Snake.Direction.Left).nextDir =
      Snake.Direction.Left :=
  ⟨(snake_paused_request_dropped pausedSnakeState Snake.Direction.Left).1 (by decide),
   (snake_paused_request_dropped activeSnakeState Snake.Direction.Left).2
     (by decide) (by decide) (by decide)⟩

/-! ## C8: reset idempotence -/

theorem rngNext_fst_lt (rng : List Nat) (n : Nat) (hn : 0 < n) :
    (rngNext rng n).1 < n := by
  cases rng with
  | nil => exact hn
  | cons v rest => exact Nat.mod_lt v hn

theorem spawnFood_fields (g : Snake.Game) :
    ∃ f r, Snake.spawnFood g = { g with food := f, rng := r } := by
  unfold Snake.spawnFood
  dsimp only
  split
  · exact ⟨_, _, rfl⟩
  · exact ⟨g.food, g.rng, rfl⟩

theorem spawnPiece_fields (g : Tetris.Game) :
    ∃ cp cs pxv np r go,
      Tetris.spawnPiece g =
        { g with currPiece := cp, currShape := cs, pieceX := pxv, pieceY := 0,
                 nextPiece := np, rng := r, gameOver := go } := by
  unfold Tetris.spawnPiece
  dsimp only
  split
  all_goals split
  all_goals exact ⟨_, _, _, _, _, _, rfl⟩

theorem getD_mapzero_row (b : List (List Nat)) (i : Nat) :
    (b.map (fun row => row.map fun _ => 0)).getD i [] = (b.getD i []).map (fun _ => 0) := by
  rw [List.getD_eq_getElem?_getD, List.getD_eq_getElem?_getD, List.getElem?_map]
  cases b[i]? <;> rfl

theorem getD_mapzero_cell (row : List Nat) (j : Nat) :
    (row.map fun _ => 0).getD j 0 = 0 := by
  rw [List.getD_eq_getElem?_getD, List.getElem?_map]
  cases row[j]? <;> rfl

theorem cellAt_mapzero (b : List (List Nat)) (y x : Int) :
    Tetris.cellAt (b.map (fun row => row.map fun _ => 0)) y x = 0 := by
  unfold Tetris.cellAt
  rw [getD_mapzero_row, getD_mapzero_cell]

/-- On a freshly zeroed board, a just-spawned piece (any of the 7 shapes at
its centered spawn position) does not collide. -/
theorem collidesAt_spawn_on_zeroed (b : List (List Nat)) (n : Nat) (hn : n < 7) :
    Tetris.collidesAt (b.map (fun row => row.map fun _ => 0))
      (Tetris.Shapes.getD n [])
      ((Tetris.BoardWidth : Int) / 2 -
        (((Tetris.Shapes.getD n []).getD 0 []).length : Int) / 2) 0 = false := by
  interval_cases n <;>
    · simp only [Tetris.collidesAt, cellAt_mapzero]
      decide

theorem spawnPiece_gameOver_of_zeroed (h : Tetris.Game) (b : List (List Nat))
    (hb : h.board = b.map (fun row => row.map fun _ => 0))
    (hnp : h.nextPiece = 0) (hgo : h.gameOver = false) :
    (Tetris.spawnPiece h).gameOver = false := by
  unfold Tetris.spawnPiece
  dsimp only
  rw [if_pos hnp]
  have hlt : (rngNext h.rng Tetris.Shapes.length).1 < 7 :=
    rngNext_fst_lt h.rng Tetris.Shapes.length (by decide)
  rw [if_neg]
  · exact hgo
  · simp only [Tetris.collides, hb]
    rw [collidesAt_spawn_on_zeroed b _ hlt]
    simp

theorem snake_reset_fields (g : Snake.Game) :
    (Snake.reset g).board = g.board.map (fun row => row.map fun _ => 0) ∧
    (Snake.reset g).snake = Snake.initialSnake ∧
    (Snake.reset g).direction = Snake.Direction.Up ∧
    (Snake.reset g).nextDir = Snake.Direction.Up ∧
    (Snake.reset g).score = 0 ∧
    (Snake.reset g).length = 3 ∧
    (Snake.reset g).paused = false ∧
    (Snake.reset g).gameOver = false := by
  unfold Snake.reset
  obtain ⟨f, r, h⟩ := spawnFood_fields
    { g with
      board := g.board.map (fun row => row.map (fun _ => 0))
      snake := Snake.initialSnake
      direction := .Up
      nextDir := .Up
      score := 0
      length := 3
      paused := false
      gameOver := false }
  rw [h]
  exact ⟨rfl, rfl, rfl, rfl, rfl, rfl, rfl, rfl⟩

theorem tetris_reset_fields (g : Tetris.Game) :
    (Tetris.reset g).board = g.board.map (fun row => row.map fun _ => 0) ∧
    (Tetris.reset g).score = 0 ∧
    (Tetris.reset g).lines = 0 ∧
    (Tetris.reset g).level = 1 ∧
    (Tetris.reset g).pieceY = 0 ∧
    (Tetris.reset g).paused = false ∧
    (Tetris.reset g).gameOver = false := by
  unfold Tetris.reset
  obtain ⟨cp, cs, pxv, np, r, go, h⟩ := spawnPiece_fields
    { g with
      board := g.board.map (fun row => row.map (fun _ => 0))
      score := 0
      lines := 0
      level := 1
      nextPiece := 0
      paused := false
      gameOver := false }
  refine ⟨?_, ?_, ?_, ?_, ?_, ?_, ?_⟩
  · rw [h]
  · rw [h]
  · rw [h]
  · rw [h]
  · rw [h]
  · rw [h]
  · exact spawnPiece_gameOver_of_zeroed _ g.board rfl rfl rfl

theorem mapzero_mapzero (b : List (List Nat)) :
    (b.map (fun row => row.map fun _ => 0)).map (fun row => row.map fun _ => 0) =
      b.map (fun row => row.map fun _ => 0) := by
  rw [List.map_map]
  apply List.map_congr_left
  intro row _
  show (row.map fun _ => 0).map (fun _ => 0) = row.map (fun _ => 0)
  rw [List.map_map]
  apply List.map_congr_left
  intro a _
  rfl

/-- C8 counterexample: with the deterministic draw sequence `[0,1,2,3]`,
the first `Reset` spawns the I piece (`pieceX = 3`, `nextPiece = 2`) and the
second spawns the T piece (`pieceX = 4`, `nextPiece = 4`): `nextPiece` and
the piece position differ between the two resets, contradicting the claim
that they are identical. -/
theorem reset_idempotence_cex :
    (Tetris.reset (Tetris.newGame [0, 1, 2, 3])).nextPiece ≠
      (Tetris.reset (Tetris.reset (Tetris.newGame [0, 1, 2, 3]))).nextPiece ∧
    (Tetris.reset (Tetris.newGame [0, 1, 2, 3])).pieceX ≠
      (Tetris.reset (Tetris.reset (Tetris.newGame [0, 1, 2, 3]))).pieceX := by
  decide

/-- C8 amended: two consecutive `Reset()` calls agree on every field that
does not derive from the random source.  For Snake that is every field but
`food` (and the stream); for Tetris the current piece index, its shape, its
horizontal spawn position `pieceX` and `nextPiece` are all drawn from the
source and may differ, while `board`, `score`, `lines`, `level`, `pieceY`,
`paused` and `gameOver` are identical. -/
theorem reset_idempotence_amended :
    (∀ g : Snake.Game,
      (Snake.reset (Snake.reset g)).board = (Snake.reset g).board ∧
      (Snake.reset (Snake.reset g)).snake = (Snake.reset g).snake ∧
      (Snake.reset (Snake.reset g)).direction = (Snake.reset g).direction ∧
      (Snake.reset (Snake.reset g)).nextDir = (Snake.reset g).nextDir ∧
      (Snake.reset (Snake.reset g)).score = (Snake.reset g).score ∧
      (Snake.reset (Snake.reset g)).length = (Snake.reset g).length ∧
      (Snake.reset (Snake.reset g)).paused = (Snake.reset g).paused ∧
      (Snake.reset (Snake.reset g)).gameOver = (Snake.reset g).gameOver) ∧
    (∀ g : Tetris.Game,
      (Tetris.reset (Tetris.reset g)).board = (Tetris.reset g).board ∧
      (Tetris.reset (Tetris.reset g)).score = (Tetris.reset g).score ∧
      (Tetris.reset (Tetris.reset g)).lines = (Tetris.reset g).lines ∧
      (Tetris.reset (Tetris.reset g)).level = (Tetris.reset g).level ∧
      (Tetris.reset (Tetris.reset g)).pieceY = (Tetris.reset g).pieceY ∧
      (Tetris.reset (Tetris.reset g)).paused = (Tetris.reset g).paused ∧
      (Tetris.reset (Tetris.reset g)).gameOver = (Tetris.reset g).gameOver) := by
  constructor
  · intro g
    obtain ⟨b1, s1, d1, n1, sc1, l1, p1, o1⟩ := snake_reset_fields g
    obtain ⟨b2, s2, d2, n2, sc2, l2, p2, o2⟩ := snake_reset_fields (Snake.reset g)
    refine ⟨?_, ?_, ?_, ?_, ?_, ?_, ?_, ?_⟩
    · rw [b2, b1, mapzero_mapzero]
    · rw [s2, s1]
    · rw [d2, d1]
    · rw [n2, n1]
    · rw [sc2, sc1]
    · rw [l2, l1]
    · rw [p2, p1]
    · rw [o2, o1]
  · intro g
    obtain ⟨b1, sc1, l1, lv1, y1, p1, o1⟩ := tetris_reset_fields g
    obtain ⟨b2, sc2, l2, lv2, y2, p2, o2⟩ := tetris_reset_fields (Tetris.reset g)
    refine ⟨?_, ?_, ?_, ?_, ?_, ?_, ?_⟩
    · rw [b2, b1, mapzero_mapzero]
    · rw [sc2, sc1]
    · rw [l2, l1]
    · rw [lv2, lv1]
    · rw [y2, y1]
    · rw [p2, p1]
    · rw [o2, o1]

/-! ## C2: mutating commands while gameOver -/

theorem tetris_move_flag (g : Tetris.Game) (dx dy : Int) (b' : Bool) :
    Tetris.move { g with gameOver := b' } dx dy =
      ({ (Tetris.move g dx dy).1 with gameOver := b' }, (Tetris.move g dx dy).2) := by
  unfold Tetris.move
  dsimp only
  by_cases hc :
      Tetris.collidesAt g.board g.currShape (g.pieceX + dx) (g.pieceY + dy) = true <;>
    simp [Tetris.collides, hc]

theorem tetris_rotate_flag (g : Tetris.Game) (b' : Bool) :
    Tetris.rotate { g with gameOver := b' } = { Tetris.rotate g with gameOver := b' } := by
  unfold Tetris.rotate
  dsimp only
  by_cases hc :
      Tetris.collidesAt g.board (Tetris.rotateShape g.currShape) g.pieceX g.pieceY = true <;>
    simp [Tetris.collides, hc]

theorem tetris_lockPiece_flag (g : Tetris.Game) (b' : Bool) :
    Tetris.lockPiece { g with gameOver := b' } = { Tetris.lockPiece g with gameOver := b' } :=
  rfl

theorem tetris_clearLines_flag (g : Tetris.Game) (b' : Bool) :
    Tetris.clearLines { g with gameOver := b' } =
      (Tetris.clearLines g).map (fun h => { h with gameOver := b' }) := by
  unfold Tetris.clearLines
  dsimp only
  split_ifs <;> rfl

theorem tetris_spawnPiece_true_eq (g : Tetris.Game) (b' : Bool) :
    Tetris.spawnPiece { g with gameOver := true } =
      { Tetris.spawnPiece { g with gameOver := b' } with gameOver := true } := by
  unfold Tetris.spawnPiece
  dsimp only
  split_ifs <;> rfl

theorem tetris_drop_flag (g : Tetris.Game) :
    Tetris.drop { g with gameOver := true } =
      (Tetris.drop { g with gameOver := false }).map
        (fun r => ({ r.1 with gameOver := true }, r.2)) := by
  unfold Tetris.drop
  rw [tetris_move_flag g 0 1 true, tetris_move_flag g 0 1 false]
  dsimp only
  by_cases hm : (Tetris.move g 0 1).2 = true
  · simp [hm]
  · simp only [Bool.not_eq_true] at hm
    simp only [hm, Bool.false_eq_true, if_false]
    simp only [tetris_lockPiece_flag, tetris_clearLines_flag]
    cases Tetris.clearLines (Tetris.lockPiece g) with
    | none => rfl
    | some g1 =>
      simp only [Option.map_some']
      rw [tetris_spawnPiece_true_eq g1 false]

/-- C2 counterexample: in a gameOver state whose piece can still move,
`move(1, 0)` returns `true` (not `false`) and changes `pieceX`, so the
command is not a no-op on a terminal state. -/
theorem tetris_gameover_commands_cex :
    overTetrisState.gameOver = true ∧
    (Tetris.move overTetrisState 1 0).2 = true ∧
    (Tetris.move overTetrisState 1 0).1.pieceX ≠ overTetrisState.pieceX := by
  decide

/-- C2 amended: `move`, `rotate` and `drop` never consult `gameOver`; on a
state with `gameOver = true` they behave exactly as on the same state with
`gameOver = false` — same boolean results and same updates to board, piece
and scores, with only the flag itself carried through (still true) — rather
than being state-preserving no-ops returning false. -/
theorem tetris_gameover_commands_unguarded (g : Tetris.Game) (dx dy : Int) :
    Tetris.move { g with gameOver := true } dx dy =
      ({ (Tetris.move { g with gameOver := false } dx dy).1 with gameOver := true },
        (Tetris.move { g with gameOver := false } dx dy).2) ∧
    Tetris.rotate { g with gameOver := true } =
      { Tetris.rotate { g with gameOver := false } with gameOver := true } ∧
    Tetris.drop { g with gameOver := true } =
      (Tetris.drop { g with gameOver := false }).map
        (fun r => ({ r.1 with gameOver := true }, r.2)) := by
  refine ⟨?_, ?_, tetris_drop_flag g⟩
  · rw [tetris_move_flag g dx dy true, tetris_move_flag g dx dy false]
  · rw [tetris_rotate_flag g true, tetris_rotate_flag g false]

/-! ## C9: the Snake board is never written -/

theorem snake_spawnFood_board (g : Snake.Game) :
    (Snake.spawnFood g).board = g.board := by
  obtain ⟨f, r, h⟩ := spawnFood_fields g
  rw [h]

theorem snake_move_board (g : Snake.Game) : ((Snake.move g).1).board = g.board := by
  unfold Snake.move
  dsimp only
  split
  · rfl
  · split
    · rw [snake_spawnFood_board]
    · split <;> rfl

theorem snake_togglePause_board (g : Snake.Game) :
    (Snake.togglePause g).board = g.board := by
  unfold Snake.togglePause
  split <;> rfl

theorem snake_requestDirection_board (g : Snake.Game) (d : Snake.Direction) :
    (Snake.requestDirection g d).board = g.board := by
  unfold Snake.requestDirection
  split
  · rfl
  · split
    · rfl
    · cases d <;> (dsimp only; split <;> rfl)

theorem snake_reset_board_zero (g : Snake.Game) (h : g.board = Snake.emptyBoard) :
    (Snake.reset g).board = Snake.emptyBoard := by
  rw [(snake_reset_fields g).1, h]
  decide

theorem snake_reachable_board_zero (g : Snake.Game) (h : Snake.Reachable g) :
    g.board = Snake.emptyBoard := by
  induction h with
  | init rng => rw [snake_spawnFood_board]; rfl
  | tick g hover hpause hr ih => rw [snake_move_board]; exact ih
  | resetOver g hover hr ih => exact snake_reset_board_zero g ih
  | resetActive g hover hpause hr ih => exact snake_reset_board_zero g ih
  | pause g hr ih => rw [snake_togglePause_board]; exact ih
  | reqDir g d hr ih => rw [snake_requestDirection_board]; exact ih

theorem spawnCandidates_of_zero (g : Snake.Game) (h : g.board = Snake.emptyBoard) :
    Snake.spawnCandidates g = snakeAllCells := by
  unfold Snake.spawnCandidates
  rw [h]
  decide

theorem mem_snakeAllCells (p : Snake.Point) (hx0 : 0 ≤ p.x)
    (hx : p.x < (Snake.BoardWidth : Int)) (hy0 : 0 ≤ p.y)
    (hy : p.y < (Snake.BoardHeight : Int)) : p ∈ snakeAllCells := by
  obtain ⟨x, y⟩ := p
  dsimp only at hx0 hx hy0 hy
  have hx20 : x < 20 := by simpa [Snake.BoardWidth] using hx
  have hy15 : y < 15 := by simpa [Snake.BoardHeight] using hy
  simp only [snakeAllCells, Snake.BoardWidth, Snake.BoardHeight, List.mem_flatMap,
    List.mem_map, List.mem_range]
  refine ⟨y.toNat, by omega, x, ?_, ?_⟩
  · simp only [bind_pure_comp, List.map_eq_map, List.mem_map, List.mem_range]
    exact ⟨x.toNat, by omega, by rw [Int.toNat_of_nonneg hx0]⟩
  · show Snake.Point.mk x ((y.toNat : Nat) : Int) = ⟨x, y⟩
    rw [Int.toNat_of_nonneg hy0]

/-- C9: in every reachable Snake state the board grid is entirely zero (no
operation ever writes a non-zero value into it), so `spawnFood`'s candidate
list is the full row-major enumeration of all `BoardWidth * BoardHeight`
cells — the food is drawn uniformly from every cell of the board, including
cells currently occupied by the snake body. -/
theorem snake_board_zero_spawn_uniform (g : Snake.Game) (h : Snake.Reachable g) :
    g.board = Snake.emptyBoard ∧
    Snake.spawnCandidates g = snakeAllCells ∧
    snakeAllCells.length = Snake.BoardWidth * Snake.BoardHeight ∧
    ∀ p : Snake.Point, 0 ≤ p.x → p.x < (Snake.BoardWidth : Int) → 0 ≤ p.y →
      p.y < (Snake.BoardHeight : Int) → p ∈ Snake.spawnCandidates g := by
  have hb := snake_reachable_board_zero g h
  have hc := spawnCandidates_of_zero g hb
  exact ⟨hb, hc, by decide, fun p h1 h2 h3 h4 => hc ▸ mem_snakeAllCells p h1 h2 h3 h4⟩

theorem snake_board_zero_spawn_uniform_witness :
    activeSnakeState.board = Snake.emptyBoard ∧
    Snake.spawnCandidates activeSnakeState = snakeAllCells ∧
    (⟨10, 7⟩ : Snake.Point) ∈ Snake.spawnCandidates activeSnakeState :=
  ⟨(snake_board_zero_spawn_uniform activeSnakeState (Snake.Reachable.init [])).1,
   (snake_board_zero_spawn_uniform activeSnakeState (Snake.Reachable.init [])).2.1,
   (snake_board_zero_spawn_uniform activeSnakeState (Snake.Reachable.init [])).2.2.2
     ⟨10, 7⟩ (by decide) (by decide) (by decide) (by decide)⟩

/-! ## C4: ghost position vs repeated Drop -/

theorem ghostStop_eq_true_iff (b shape : List (List Nat)) (px gy : Int) :
    Tetris.ghostStop b shape px gy = true ↔
      ∃ y, y < shape.length ∧ ∃ x, x < (shape.getD y []).length ∧
        (shape.getD y []).getD x 0 = 1 ∧
        (gy + (y : Int) + 1 ≥ (Tetris.BoardHeight : Int) ∨
         (gy + (y : Int) + 1 ≥ 0 ∧
           Tetris.cellAt b (gy + (y : Int) + 1) (px + (x : Int)) ≠ 0)) := by
  unfold Tetris.ghostStop
  simp only [List.any_eq_true, List.mem_range]
  constructor
  · rintro ⟨y, hy, x, hx, hb⟩
    rw [ite_cell_eq_true] at hb
    exact ⟨y, hy, x, hx, hb.1, hb.2⟩
  · rintro ⟨y, hy, x, hx, h1, h2⟩
    exact ⟨y, hy, x, hx, (ite_cell_eq_true _ _ _).mpr ⟨h1, h2⟩⟩

theorem horiz_inbounds_of_not_collides (b shape : List (List Nat)) (px py : Int)
    (h : Tetris.collidesAt b shape px py = false) :
    ∀ y x, y < shape.length → x < (shape.getD y []).length →
      (shape.getD y []).getD x 0 = 1 →
      0 ≤ px + (x : Int) ∧ px + (x : Int) < (Tetris.BoardWidth : Int) := by
  intro y x hy hx hcell
  by_contra hcon
  have hbad : px + (x : Int) < 0 ∨ px + (x : Int) ≥ (Tetris.BoardWidth : Int) := by
    rcases not_and_or.mp hcon with h0 | h1
    · left; omega
    · right; omega
  have hc : Tetris.collidesAt b shape px py = true := by
    rw [collidesAt_eq_true_iff]
    refine ⟨y, hy, x, hx, hcell, ?_⟩
    rcases hbad with hh | hh
    · exact Or.inl hh
    · exact Or.inr (Or.inl hh)
  rw [hc] at h
  exact Bool.noConfusion h

theorem ghostStop_eq_collidesAt (b shape : List (List Nat)) (px : Int)
    (hb : ∀ y x, y < shape.length → x < (shape.getD y []).length →
      (shape.getD y []).getD x 0 = 1 →
      0 ≤ px + (x : Int) ∧ px + (x : Int) < (Tetris.BoardWidth : Int)) (gy : Int) :
    Tetris.ghostStop b shape px gy = Tetris.collidesAt b shape px (gy + 1) := by
  rw [Bool.eq_iff_iff, ghostStop_eq_true_iff, collidesAt_eq_true_iff]
  constructor
  · rintro ⟨y, hy, x, hx, hcell, hrest⟩
    refine ⟨y, hy, x, hx, hcell, ?_⟩
    have e : gy + (y : Int) + 1 = gy + 1 + y := by ring
    rcases hrest with h | h
    · right; right; left; omega
    · right; right; right; exact ⟨by omega, by rw [← e]; exact h.2⟩
  · rintro ⟨y, hy, x, hx, hcell, hrest⟩
    refine ⟨y, hy, x, hx, hcell, ?_⟩
    have e : gy + (y : Int) + 1 = gy + 1 + y := by ring
    rcases hrest with h | h | h | h
    · exact absurd h (by have := (hb y x hy hx hcell).1; omega)
    · exact absurd h (by have := (hb y x hy hx hcell).2; omega)
    · left; omega
    · right; exact ⟨by omega, by rw [e]; exact h.2⟩

theorem ghostAux_eq_dropIterY (b shape : List (List Nat)) (px : Int)
    (hb : ∀ y x, y < shape.length → x < (shape.getD y []).length →
      (shape.getD y []).getD x 0 = 1 →
      0 ≤ px + (x : Int) ∧ px + (x : Int) < (Tetris.BoardWidth : Int)) :
    ∀ fuel gy, Tetris.ghostAux b shape px fuel gy = Tetris.dropIterY b shape px fuel gy := by
  intro fuel
  induction fuel with
  | zero => intro gy; rfl
  | succ f ih =>
    intro gy
    simp only [Tetris.ghostAux, Tetris.dropIterY]
    rw [ghostStop_eq_collidesAt b shape px hb gy]
    split
    · rfl
    · exact ih (gy + 1)

theorem shapeHasCell_spec (shape : List (List Nat))
    (h : Tetris.shapeHasCell shape = true) :
    ∃ y, y < shape.length ∧ ∃ x, x < (shape.getD y []).length ∧
      (shape.getD y []).getD x 0 = 1 := by
  unfold Tetris.shapeHasCell at h
  rw [List.any_eq_true] at h
  obtain ⟨row, hrow, hr⟩ := h
  rw [List.any_eq_true] at hr
  obtain ⟨c, hc, hceq⟩ := hr
  obtain ⟨y, hy, hyeq⟩ := List.mem_iff_getElem.mp hrow
  obtain ⟨x, hx, hxeq⟩ := List.mem_iff_getElem.mp hc
  have e1 : shape.getD y [] = row := by
    rw [List.getD_eq_getElem?_getD, List.getElem?_eq_getElem hy, hyeq]
    rfl
  refine ⟨y, hy, x, ?_, ?_⟩
  · rw [e1]; exact hx
  · rw [e1, List.getD_eq_getElem?_getD, List.getElem?_eq_getElem hx, hxeq]
    simpa using hceq

theorem ghostAux_stops (b shape : List (List Nat)) (px : Int)
    (hcell : ∃ y, y < shape.length ∧ ∃ x, x < (shape.getD y []).length ∧
      (shape.getD y []).getD x 0 = 1) :
    ∀ (fuel : Nat) (gy : Int), (Tetris.BoardHeight : Int) ≤ gy + (fuel : Int) →
      Tetris.ghostStop b shape px (Tetris.ghostAux b shape px fuel gy) = true := by
  intro fuel
  induction fuel with
  | zero =>
    intro gy hge
    simp only [Tetris.ghostAux]
    rw [ghostStop_eq_true_iff]
    obtain ⟨y, hy, x, hx, hc⟩ := hcell
    refine ⟨y, hy, x, hx, hc, Or.inl ?_⟩
    push_cast at hge
    omega
  | succ f ih =>
    intro gy hge
    simp only [Tetris.ghostAux]
    split
    · next hstop => exact hstop
    · exact ih (gy + 1) (by push_cast at hge ⊢; omega)

/-- C4: for a state whose current piece (with at least one filled cell) does
not collide at its current position, `getGhostPosition` returns exactly
`(pieceX, finalY)` where `finalY` is the row reached by calling the gravity
step `move(0, 1)` (the body of `drop()`) repeatedly until it first fails —
for every fuel the two descents coincide, and with enough fuel the descent
has genuinely stopped (the next row down collides). -/
theorem tetris_ghost_accuracy (g : Tetris.Game) (hgo : g.gameOver = false)
    (hnc : Tetris.collides g = false) (hcell : Tetris.shapeHasCell g.currShape = true) :
    (∀ fuel, Tetris.getGhostPosition g fuel =
      (g.pieceX, Tetris.dropIterY g.board g.currShape g.pieceX fuel g.pieceY)) ∧
    (∀ fuel : Nat, (Tetris.BoardHeight : Int) ≤ g.pieceY + (fuel : Int) →
      Tetris.ghostStop g.board g.currShape g.pieceX
        (Tetris.ghostAux g.board g.currShape g.pieceX fuel g.pieceY) = true) := by
  have hb := horiz_inbounds_of_not_collides g.board g.currShape g.pieceX g.pieceY hnc
  constructor
  · intro fuel
    unfold Tetris.getGhostPosition
    rw [ghostAux_eq_dropIterY g.board g.currShape g.pieceX hb fuel g.pieceY]
  · intro fuel hge
    exact ghostAux_stops g.board g.currShape g.pieceX (shapeHasCell_spec _ hcell) fuel g.pieceY hge

theorem tetris_ghost_accuracy_witness :
    Tetris.getGhostPosition (Tetris.spawnPiece (Tetris.newGame [0, 1])) 32 =
      ((Tetris.spawnPiece (Tetris.newGame [0, 1])).pieceX,
       Tetris.dropIterY (Tetris.spawnPiece (Tetris.newGame [0, 1])).board
         (Tetris.spawnPiece (Tetris.newGame [0, 1])).currShape
         (Tetris.spawnPiece (Tetris.newGame [0, 1])).pieceX 32
         (Tetris.spawnPiece (Tetris.newGame [0, 1])).pieceY) ∧
    Tetris.ghostStop (Tetris.spawnPiece (Tetris.newGame [0, 1])).board
      (Tetris.spawnPiece (Tetris.newGame [0, 1])).currShape
      (Tetris.spawnPiece (Tetris.newGame [0, 1])).pieceX
      (Tetris.ghostAux (Tetris.spawnPiece (Tetris.newGame [0, 1])).board
        (Tetris.spawnPiece (Tetris.newGame [0, 1])).currShape
        (Tetris.spawnPiece (Tetris.newGame [0, 1])).pieceX 32
        (Tetris.spawnPiece (Tetris.newGame [0, 1])).pieceY) = true :=
  ⟨(tetris_ghost_accuracy (Tetris.spawnPiece (Tetris.newGame [0, 1]))
      (by decide) (by decide) (by decide)).1 32,
   (tetris_ghost_accuracy (Tetris.spawnPiece (Tetris.newGame [0, 1]))
      (by decide) (by decide) (by decide)).2 32 (by decide)⟩

/-! ## C5: clearLines -/

theorem getD_set_ne {α : Type} (l : List α) (i j : Nat) (v d : α) (h : i ≠ j) :
    (l.set i v).getD j d = l.getD j d := by
  rw [List.getD_eq_getElem?_getD, List.getD_eq_getElem?_getD, List.getElem?_set, if_neg h]

theorem take_set_of_le {α : Type} (l : List α) (i n : Nat) (v : α) (h : n ≤ i) :
    (l.set i v).take n = l.take n := by
  induction l generalizing i n with
  | nil => simp
  | cons a t ih =>
    cases i with
    | zero =>
      have hn : n = 0 := Nat.le_zero.mp h
      simp [hn]
    | succ j =>
      cases n with
      | zero => simp
      | succ m =>
        rw [List.set_cons_succ, List.take_succ_cons, List.take_succ_cons,
          ih j m (Nat.le_of_succ_le_succ h)]

theorem getD_replicate_lt {α : Type} (a d : α) {n i : Nat} (h : i < n) :
    (List.replicate n a).getD i d = a := by
  rw [List.getD_eq_getElem?_getD, List.getElem?_replicate, if_pos h]
  rfl

theorem drop_set_self {α : Type} (l : List α) (i : Nat) (v : α) (h : i < l.length) :
    (l.set i v).drop i = v :: l.drop (i + 1) := by
  rw [List.drop_set, if_neg (lt_irrefl i), Nat.sub_self, List.drop_eq_getElem_cons h]
  rfl

theorem take_succ_getD {α : Type} (l : List α) (n : Nat) (d : α) (h : n < l.length) :
    l.take (n + 1) = l.take n ++ [l.getD n d] := by
  rw [List.take_succ, List.getElem?_eq_getElem h, List.getD_eq_getElem?_getD,
    List.getElem?_eq_getElem h]
  rfl

theorem getD_zero_mem {α : Type} (l : List α) (d : α) (h : l ≠ []) : l.getD 0 d ∈ l := by
  cases l with
  | nil => exact absurd rfl h
  | cons a t => simp

theorem shiftAux_eq :
    ∀ (y : Nat) (b : List (List Nat)), y < b.length →
      Tetris.shiftAux b y = b.getD 0 [] :: (b.take y ++ b.drop (y + 1)) := by
  intro y
  induction y with
  | zero =>
    intro b hb
    cases b with
    | nil => simp at hb
    | cons a t => simp [Tetris.shiftAux]
  | succ j ih =>
    intro b hb
    simp only [Tetris.shiftAux]
    rw [ih (b.set (j + 1) (b.getD j [])) (by rw [List.length_set]; omega)]
    rw [getD_set_ne _ _ _ _ _ (by omega : j + 1 ≠ 0)]
    rw [take_set_of_le _ _ _ _ (by omega : j ≤ j + 1)]
    rw [drop_set_self _ _ _ hb]
    rw [take_succ_getD b j [] (by omega)]
    simp [List.append_assoc]

theorem clear_step_eq (b : List (List Nat)) (y : Nat) (hy : y < b.length)
    (h0 : (b.getD 0 []).length = Tetris.BoardWidth) :
    Tetris.clearTop (Tetris.shiftAux b y) =
      Tetris.emptyRow :: (b.take y ++ b.drop (y + 1)) := by
  rw [shiftAux_eq y b hy]
  unfold Tetris.clearTop
  show ((b.getD 0 []).map fun _ => 0) :: (b.take y ++ b.drop (y + 1)) = _
  congr 1
  have : ∀ (r : List Nat), r.map (fun _ => (0 : Nat)) = List.replicate r.length 0 := by
    intro r
    induction r with
    | nil => rfl
    | cons a t ih2 => simp [List.replicate_succ, ih2]
  rw [this, h0]
  rfl

theorem clearAux_empty_prefix :
    ∀ (k : Nat) (w : List (List Nat)) (fuel acc : Nat),
      Tetris.clearAux fuel (List.replicate k Tetris.emptyRow ++ w) ((k : Int) - 1) acc =
        (List.replicate k Tetris.emptyRow ++ w, acc) := by
  intro k
  induction k with
  | zero =>
    intro w fuel acc
    cases fuel with
    | zero => rfl
    | succ f =>
      simp only [Tetris.clearAux]
      rw [if_pos (by decide : ((0 : Nat) : Int) - 1 < 0)]
  | succ j ih =>
    intro w fuel acc
    cases fuel with
    | zero => rfl
    | succ f =>
      simp only [Tetris.clearAux]
      rw [if_neg (by push_cast; omega : ¬(((j + 1 : Nat) : Int) - 1 < 0))]
      have hyt : (((j + 1 : Nat) : Int) - 1).toNat = j := by push_cast; omega
      rw [hyt]
      have hrow : (List.replicate (j + 1) Tetris.emptyRow ++ w).getD j [] =
          Tetris.emptyRow := by
        rw [List.getD_append _ _ _ _ (by simp : j < (List.replicate (j + 1) Tetris.emptyRow).length)]
        exact getD_replicate_lt _ _ (by omega)
      rw [hrow]
      rw [if_neg (by decide : ¬(Tetris.completeRow Tetris.emptyRow = true))]
      have hy1 : ((j + 1 : Nat) : Int) - 1 - 1 = ((j : Nat) : Int) - 1 := by push_cast; ring
      rw [hy1]
      have hb : List.replicate (j + 1) Tetris.emptyRow ++ w =
          List.replicate j Tetris.emptyRow ++ (Tetris.emptyRow :: w) := by
        rw [List.replicate_succ']
        simp [List.append_assoc]
      rw [hb, ih (Tetris.emptyRow :: w) f acc, ← hb]

theorem clearAux_spec :
    ∀ (u : List (List Nat)), (∀ r ∈ u, r.length = Tetris.BoardWidth) →
    ∀ (k : Nat) (w : List (List Nat)) (fuel acc : Nat),
      2 * u.length + k < fuel →
      Tetris.clearAux fuel (List.replicate k Tetris.emptyRow ++ u ++ w)
          ((k : Int) + (u.length : Int) - 1) acc =
        (List.replicate (k + u.countP Tetris.completeRow) Tetris.emptyRow ++
           u.filter (fun r => !Tetris.completeRow r) ++ w,
         acc + u.countP Tetris.completeRow) := by
  intro u
  induction u using List.reverseRecOn with
  | nil =>
    intro hu k w fuel acc hfuel
    simpa using clearAux_empty_prefix k w fuel acc
  | append_singleton u' r ih =>
    intro hu k w fuel acc hfuel
    have hu' : ∀ s ∈ u', s.length = Tetris.BoardWidth := fun s hs =>
      hu s (List.mem_append_left _ hs)
    have hrlen : r.length = Tetris.BoardWidth :=
      hu r (List.mem_append_right _ (by simp))
    have hlu : (u' ++ [r]).length = u'.length + 1 := by simp
    cases fuel with
    | zero => exact absurd hfuel (by omega)
    | succ f =>
      simp only [Tetris.clearAux]
      rw [if_neg (by rw [hlu]; push_cast; omega :
        ¬((k : Int) + ((u' ++ [r]).length : Int) - 1 < 0))]
      have hyt : ((k : Int) + ((u' ++ [r]).length : Int) - 1).toNat = k + u'.length := by
        rw [hlu]; push_cast; omega
      rw [hyt]
      have hrow : (List.replicate k Tetris.emptyRow ++ (u' ++ [r]) ++ w).getD
          (k + u'.length) [] = r := by
        rw [List.getD_append _ _ _ _ (by simp <;> omega)]
        rw [List.getD_append_right _ _ _ _ (by simp)]
        rw [List.length_replicate]
        rw [List.getD_append_right _ _ _ _ (by omega)]
        have : k + u'.length - k - u'.length = 0 := by omega
        rw [this]
        rfl
      rw [hrow]
      by_cases hcr : Tetris.completeRow r = true
      · rw [if_pos hcr]
        have hblen : k + u'.length < (List.replicate k Tetris.emptyRow ++ (u' ++ [r]) ++ w).length := by
          simp <;> omega
        have h0 : ((List.replicate k Tetris.emptyRow ++ (u' ++ [r]) ++ w).getD 0 []).length =
            Tetris.BoardWidth := by
          cases k with
          | zero =>
            simp only [List.replicate, List.nil_append]
            rw [List.getD_append _ _ _ _ (by simp)]
            have hmem := getD_zero_mem (u' ++ [r]) ([] : List Nat) (by simp)
            exact hu _ hmem
          | succ m =>
            rw [List.getD_append _ _ _ _ (by simp <;> omega)]
            rw [List.getD_append _ _ _ _ (by simp)]
            rw [getD_replicate_lt _ _ (by omega)]
            simp [Tetris.emptyRow]
        rw [clear_step_eq _ _ hblen h0]
        have htake : (List.replicate k Tetris.emptyRow ++ (u' ++ [r]) ++ w).take
            (k + u'.length) = List.replicate k Tetris.emptyRow ++ u' := by
          rw [List.take_append_of_le_length (by simp <;> omega)]
          rw [List.take_append_eq_append_take]
          rw [List.take_of_length_le (by simp)]
          rw [List.length_replicate]
          have : k + u'.length - k = u'.length := by omega
          rw [this]
          rw [List.take_append_of_le_length (by omega), List.take_length]
        have hdrop : (List.replicate k Tetris.emptyRow ++ (u' ++ [r]) ++ w).drop
            (k + u'.length + 1) = w := by
          apply List.drop_left'
          simp <;> omega
        rw [htake, hdrop]
        have hb2 : Tetris.emptyRow :: (List.replicate k Tetris.emptyRow ++ u' ++ w) =
            List.replicate (k + 1) Tetris.emptyRow ++ u' ++ w := by
          rw [List.replicate_succ]
          simp [List.append_assoc]
        rw [hb2]
        have hyeq : (k : Int) + ((u' ++ [r]).length : Int) - 1 =
            ((k + 1 : Nat) : Int) + (u'.length : Int) - 1 := by
          rw [hlu]; push_cast; ring
        rw [hyeq]
        rw [ih hu' (k + 1) w f (acc + 1) (by rw [hlu] at hfuel; omega)]
        have hcnt : (u' ++ [r]).countP Tetris.completeRow =
            u'.countP Tetris.completeRow + 1 := by
          rw [List.countP_append]
          simp [List.countP_cons, hcr]
        have hfil : (u' ++ [r]).filter (fun s => !Tetris.completeRow s) =
            u'.filter (fun s => !Tetris.completeRow s) := by
          rw [List.filter_append]
          simp [List.filter_cons, hcr]
        rw [hcnt, hfil]
        have e1 : k + 1 + u'.countP Tetris.completeRow =
            k + (u'.countP Tetris.completeRow + 1) := by omega
        have e2 : acc + 1 + u'.countP Tetris.completeRow =
            acc + (u'.countP Tetris.completeRow + 1) := by omega
        rw [e1, e2]
      · rw [if_neg hcr]
        have hy1 : (k : Int) + ((u' ++ [r]).length : Int) - 1 - 1 =
            (k : Int) + (u'.length : Int) - 1 := by
          rw [hlu]; push_cast; ring
        rw [hy1]
        have hb3 : List.replicate k Tetris.emptyRow ++ (u' ++ [r]) ++ w =
            List.replicate k Tetris.emptyRow ++ u' ++ (r :: w) := by
          simp [List.append_assoc]
        rw [hb3]
        rw [ih hu' k (r :: w) f acc (by rw [hlu] at hfuel; omega)]
        have hcnt : (u' ++ [r]).countP Tetris.completeRow =
            u'.countP Tetris.completeRow := by
          rw [List.countP_append]
          simp [List.countP_cons, hcr]
        have hfil : (u' ++ [r]).filter (fun s => !Tetris.completeRow s) =
            u'.filter (fun s => !Tetris.completeRow s) ++ [r] := by
          rw [List.filter_append]
          simp [List.filter_cons, hcr]
        rw [hcnt, hfil]
        simp [List.append_assoc]

theorem wfBoard_spec (b : List (List Nat)) (h : Tetris.wfBoard b = true) :
    b.length = Tetris.BoardHeight ∧ ∀ r ∈ b, r.length = Tetris.BoardWidth := by
  unfold Tetris.wfBoard at h
  rw [Bool.and_eq_true] at h
  obtain ⟨h1, h2⟩ := h
  constructor
  · exact of_decide_eq_true h1
  · rw [List.all_eq_true] at h2
    intro r hr
    exact of_decide_eq_true (h2 r hr)

/-- C5: `clearLines` removes exactly the complete rows of the board in one
bottom-to-top pass (stacked complete rows included, thanks to the
same-index re-examination), shifting every row above a removed row down by
one (the source copies the row contents element-wise) and stacking fresh
empty rows on top; then — when `k > 0` rows were cleared — it adds `k` to
`lines`, adds `{0,100,300,500,800}[k]` times the pre-call `level` to
`score` and recomputes `level` as `lines/10 + 1`; when `k = 0` the scan
leaves score and level untouched. -/
theorem tetris_clearLines_spec (g : Tetris.Game)
    (hwf : Tetris.wfBoard g.board = true)
    (hk : g.board.countP Tetris.completeRow ≤ 4) :
    Tetris.clearLines g = some
      { g with
        board := List.replicate (g.board.countP Tetris.completeRow) Tetris.emptyRow ++
          g.board.filter (fun r => !Tetris.completeRow r)
        lines := g.lines + (g.board.countP Tetris.completeRow : Int)
        score := g.score +
          Tetris.scoreTable.getD (g.board.countP Tetris.completeRow) 0 * g.level
        level := if 0 < g.board.countP Tetris.completeRow then
            (g.lines + (g.board.countP Tetris.completeRow : Int)) / 10 + 1
          else g.level } := by
  obtain ⟨hlen, hrows⟩ := wfBoard_spec g.board hwf
  have h := clearAux_spec g.board hrows 0 [] 64 0 (by rw [hlen]; decide)
  have e1 : List.replicate 0 Tetris.emptyRow ++ g.board ++ [] = g.board := by simp
  have e2 : ((0 : Nat) : Int) + (g.board.length : Int) - 1 = (Tetris.BoardHeight : Int) - 1 := by
    rw [hlen]; push_cast; ring
  rw [e1, e2] at h
  unfold Tetris.clearLines
  rw [h]
  dsimp only
  simp only [Nat.zero_add, List.append_nil]
  by_cases hcpos : 0 < g.board.countP Tetris.completeRow
  · rw [if_pos hcpos, if_pos (show g.board.countP Tetris.completeRow <
      Tetris.scoreTable.length by simp [Tetris.scoreTable]; omega)]
    rw [if_pos hcpos]
  · rw [if_neg hcpos]
    have hc0 : g.board.countP Tetris.completeRow = 0 := by omega
    rw [hc0]
    simp [Tetris.scoreTable]

theorem tetris_clearLines_spec_witness :
    Tetris.clearLines clearDemoState = some
      { clearDemoState with
        board := List.replicate (clearDemoState.board.countP Tetris.completeRow)
            Tetris.emptyRow ++
          clearDemoState.board.filter (fun r => !Tetris.completeRow r)
        lines := clearDemoState.lines +
          (clearDemoState.board.countP Tetris.completeRow : Int)
        score := clearDemoState.score +
          Tetris.scoreTable.getD (clearDemoState.board.countP Tetris.completeRow) 0 *
            clearDemoState.level
        level := if 0 < clearDemoState.board.countP Tetris.completeRow then
            (clearDemoState.lines +
              (clearDemoState.board.countP Tetris.completeRow : Int)) / 10 + 1
          else clearDemoState.level } :=
  tetris_clearLines_spec clearDemoState (by decide) (by decide)

/-! ## C10: the score-table access is in bounds after a lock -/

theorem list_foldl_invariant {α β : Type} (P : α → Prop) (f : α → β → α) :
    ∀ (l : List β) (b : α), P b → (∀ c x, x ∈ l → P c → P (f c x)) → P (l.foldl f b) := by
  intro l
  induction l with
  | nil =>
    intro b hb _
    exact hb
  | cons x t ih =>
    intro b hb hstep
    exact ih (f b x) (hstep b x (by simp) hb)
      (fun c x2 hx2 => hstep c x2 (by simp [hx2]))

theorem lockPiece_outside (g : Tetris.Game) :
    (Tetris.lockPiece g).board.take g.pieceY.toNat = g.board.take g.pieceY.toNat ∧
    (Tetris.lockPiece g).board.drop (g.pieceY.toNat + g.currShape.length) =
      g.board.drop (g.pieceY.toNat + g.currShape.length) ∧
    (Tetris.lockPiece g).board.length = g.board.length := by
  unfold Tetris.lockPiece
  dsimp only
  refine list_foldl_invariant
    (fun (b : List (List Nat)) => b.take g.pieceY.toNat = g.board.take g.pieceY.toNat ∧
      b.drop (g.pieceY.toNat + g.currShape.length) =
        g.board.drop (g.pieceY.toNat + g.currShape.length) ∧
      b.length = g.board.length)
    _ _ _ ⟨rfl, rfl, rfl⟩ ?_
  intro c y hy hc
  refine list_foldl_invariant
    (fun (b : List (List Nat)) => b.take g.pieceY.toNat = g.board.take g.pieceY.toNat ∧
      b.drop (g.pieceY.toNat + g.currShape.length) =
        g.board.drop (g.pieceY.toNat + g.currShape.length) ∧
      b.length = g.board.length)
    _ _ _ hc ?_
  intro c2 x hx hc2
  dsimp only
  split
  · split
    · next hguard =>
      obtain ⟨hY0, hY20, hX0, hX10⟩ := hguard
      have hym : y < g.currShape.length := List.mem_range.mp hy
      have hle : g.pieceY.toNat ≤ (g.pieceY + (y : Int)).toNat := by omega
      have hlt : (g.pieceY + (y : Int)).toNat < g.pieceY.toNat + g.currShape.length := by
        omega
      unfold Tetris.setCell
      refine ⟨?_, ?_, ?_⟩
      · rw [take_set_of_le _ _ _ _ hle]
        exact hc2.1
      · rw [List.drop_set, if_pos hlt]
        exact hc2.2.1
      · rw [List.length_set]
        exact hc2.2.2
    · exact hc2
  · exact hc2

theorem lockPiece_complete_bound (g : Tetris.Game)
    (h0 : g.board.countP Tetris.completeRow = 0)
    (hm : g.currShape.length ≤ 4) :
    (Tetris.lockPiece g).board.countP Tetris.completeRow ≤ 4 := by
  obtain ⟨ht, hd, hl⟩ := lockPiece_outside g
  have hsplit : (Tetris.lockPiece g).board =
      (Tetris.lockPiece g).board.take g.pieceY.toNat ++
        (((Tetris.lockPiece g).board.drop g.pieceY.toNat).take g.currShape.length ++
          ((Tetris.lockPiece g).board.drop g.pieceY.toNat).drop g.currShape.length) := by
    rw [List.take_append_drop, List.take_append_drop]
  have hdd : ((Tetris.lockPiece g).board.drop g.pieceY.toNat).drop g.currShape.length =
      (Tetris.lockPiece g).board.drop (g.pieceY.toNat + g.currShape.length) := by
    rw [List.drop_drop]
  have hcnt : (Tetris.lockPiece g).board.countP Tetris.completeRow =
      ((Tetris.lockPiece g).board.take g.pieceY.toNat).countP Tetris.completeRow +
        ((((Tetris.lockPiece g).board.drop g.pieceY.toNat).take
            g.currShape.length).countP Tetris.completeRow +
          ((Tetris.lockPiece g).board.drop
              (g.pieceY.toNat + g.currShape.length)).countP Tetris.completeRow) := by
    conv_lhs => rw [hsplit]
    rw [List.countP_append, List.countP_append, hdd]
  have c1 : ((Tetris.lockPiece g).board.take g.pieceY.toNat).countP Tetris.completeRow = 0 := by
    rw [ht]
    have hle : (g.board.take g.pieceY.toNat).countP Tetris.completeRow ≤
        g.board.countP Tetris.completeRow := by
      conv_rhs => rw [← List.take_append_drop g.pieceY.toNat g.board]
      rw [List.countP_append]
      omega
    omega
  have c3 : ((Tetris.lockPiece g).board.drop
      (g.pieceY.toNat + g.currShape.length)).countP Tetris.completeRow = 0 := by
    rw [hd]
    have hle : (g.board.drop (g.pieceY.toNat + g.currShape.length)).countP
        Tetris.completeRow ≤ g.board.countP Tetris.completeRow := by
      conv_rhs => rw [← List.take_append_drop (g.pieceY.toNat + g.currShape.length) g.board]
      rw [List.countP_append]
      omega
    omega
  have c2 : ((((Tetris.lockPiece g).board.drop g.pieceY.toNat).take
      g.currShape.length)).countP Tetris.completeRow ≤ g.currShape.length :=
    le_trans (List.countP_le_length _) (by rw [List.length_take]; exact min_le_left _ _)
  omega

theorem wfBoard_of (b : List (List Nat)) (h1 : b.length = Tetris.BoardHeight)
    (h2 : ∀ r ∈ b, r.length = Tetris.BoardWidth) : Tetris.wfBoard b = true := by
  unfold Tetris.wfBoard
  rw [Bool.and_eq_true]
  exact ⟨decide_eq_true h1, List.all_eq_true.mpr (fun r hr => decide_eq_true (h2 r hr))⟩

theorem lockPiece_wf (g : Tetris.Game) (hwf : Tetris.wfBoard g.board = true) :
    Tetris.wfBoard (Tetris.lockPiece g).board = true := by
  obtain ⟨hlen, hrows⟩ := wfBoard_spec _ hwf
  have hinv : (Tetris.lockPiece g).board.length = g.board.length ∧
      ∀ r ∈ (Tetris.lockPiece g).board, r.length = Tetris.BoardWidth := by
    unfold Tetris.lockPiece
    dsimp only
    refine list_foldl_invariant
      (fun (b : List (List Nat)) =>
        b.length = g.board.length ∧ ∀ r ∈ b, r.length = Tetris.BoardWidth)
      _ _ _ ⟨rfl, hrows⟩ ?_
    intro c y hy hc
    refine list_foldl_invariant
      (fun (b : List (List Nat)) =>
        b.length = g.board.length ∧ ∀ r ∈ b, r.length = Tetris.BoardWidth)
      _ _ _ hc ?_
    intro c2 x hx hc2
    dsimp only
    split
    · split
      · unfold Tetris.setCell
        by_cases hlt : (g.pieceY + (y : Int)).toNat < c2.length
        · constructor
          · rw [List.length_set]
            exact hc2.1
          · intro r hr
            rcases List.mem_or_eq_of_mem_set hr with hmem | heq
            · exact hc2.2 r hmem
            · subst heq
              rw [List.length_set]
              exact hc2.2 _ (by rw [List.getD_eq_getElem c2 [] hlt]; exact List.getElem_mem hlt)
        · rw [List.set_eq_of_length_le (by omega)]
          exact hc2
      · exact hc2
    · exact hc2
  exact wfBoard_of _ (hinv.1.trans hlen) hinv.2

/-- C10: `clearLines` indexes the five-entry score table with the cleared
count, so it is only safe when at most 4 rows are complete; called right
after `lockPiece` of a piece spanning at most 4 shape rows on a board that
had no complete rows, the count of complete rows is at most 4 and the
`scoreTable[linesCleared]` access is in bounds (`clearLines` succeeds
instead of the out-of-range panic modelled by `none`). -/
theorem tetris_scoreTable_access_safe (g : Tetris.Game)
    (hwf : Tetris.wfBoard g.board = true)
    (h0 : g.board.countP Tetris.completeRow = 0)
    (hm : g.currShape.length ≤ 4) :
    (Tetris.lockPiece g).board.countP Tetris.completeRow ≤ 4 ∧
    (Tetris.clearLines (Tetris.lockPiece g)).isSome = true := by
  have hb := lockPiece_complete_bound g h0 hm
  refine ⟨hb, ?_⟩
  have hwf2 := lockPiece_wf g hwf
  rw [tetris_clearLines_spec (Tetris.lockPiece g) hwf2 hb]
  rfl

theorem tetris_scoreTable_access_safe_witness :
    (Tetris.lockPiece lockDemoState).board.countP Tetris.completeRow ≤ 4 ∧
    (Tetris.clearLines (Tetris.lockPiece lockDemoState)).isSome = true :=
  tetris_scoreTable_access_safe lockDemoState (by decide) (by decide) (by decide)

